import Mathlib

/-!
Verification of `src/compiler/translator/StaticType.h` (ANGLE shading-language
compiler, compile-time type registry).

The header defines, inside `namespace sh { namespace StaticType { ... } }`:
 - `Helpers::BuildStaticMangledName`: a constexpr encoder producing the mangled
   name of a type from its attributes;
 - `Helpers::kMangledNameInstance` / `Helpers::kInstance`: one static constexpr
   storage slot per template-argument tuple, holding the mangled name and the
   `TType` descriptor for that tuple;
 - `Get`, `GetBasic`, `GetQualified`: static lookup entry points returning
   `&kInstance<...>`;
 - `Helpers::GetForVecMatHelper`, `GetForVecMat`, `GetForVec`: dynamic dispatch
   bridges mapping runtime dimension / qualifier values onto the static lookups.

Embedding conventions:
 - The enums `TBasicType`, `TPrecision`, `TQualifier` live in the sibling header
   `Types.h` which is not part of the shown source; they are modelled from the
   spec as finite enumerations containing the enumerants this header names.
 - A C++ reference `&kInstance<B,P,Q,PS,SS>` is determined exactly by the
   template-argument tuple, so a reference is represented by that tuple
   (`TypeKey`); `deref` recovers the stored descriptor.
 - A template instantiation that fails a `static_assert` does not compile; an
   entry point is therefore embedded as returning `Option`, with `none` meaning
   compile-time rejection and `some` meaning the instantiation compiles and
   returns the given value.
 - The runtime `UNREACHABLE(); return GetBasic<EbtVoid>();` arms are embedded by
   the `LookupResult.fallback` constructor, distinguishing the fatal defensive
   path from a normal `LookupResult.ok` return.
 - The external short-code table `GetBasicMangledName` (owned by `Types.h`) is
   passed as an explicit function parameter `bm` wherever the source calls it,
   so theorems quantify over every possible table; a concrete modelled table is
   provided for witnesses.
 - `unsigned char` sizes are embedded as `Nat`; all claims involve values far
   below 256, so wrap-around is irrelevant.
-/

namespace StaticTypeH

/-- Modelled from the spec: the `TBasicType` enumeration is owned by the sibling
module `Types.h` (out of scope). The header names the enumerants
`EbtFloat`, `EbtInt`, `EbtUInt`, `EbtBool`, `EbtVoid`; the spec (§4.4, §9)
treats the basic-kind domain as a fixed finite enumeration. -/
inductive TBasicType where
  | EbtVoid
  | EbtFloat
  | EbtInt
  | EbtUInt
  | EbtBool
  deriving DecidableEq, Repr

/-- Modelled from the spec: the `TPrecision` enumeration is owned by `Types.h`
(out of scope). The header names `EbpUndefined`; the usual GLSL precision
enumerants complete the finite domain. -/
inductive TPrecision where
  | EbpUndefined
  | EbpLow
  | EbpMedium
  | EbpHigh
  deriving DecidableEq, Repr

/-- Modelled from the spec: the `TQualifier` enumeration is owned by `Types.h`
(out of scope). The header names `EvqGlobal` and `EvqOut`; a few further
enumerants represent the rest of the finite qualifier domain. -/
inductive TQualifier where
  | EvqTemporary
  | EvqGlobal
  | EvqConst
  | EvqIn
  | EvqOut
  | EvqInOut
  deriving DecidableEq, Repr

open TBasicType TPrecision TQualifier

/-- `Helpers::kStaticMangledNameMaxLength`: size of the maximum possible
constexpr-generated mangled name (line 30 of the header). -/
def kStaticMangledNameMaxLength : Nat := 10

/-- The template-argument tuple `<basicType, precision, qualifier, primarySize,
secondarySize>`. Each distinct tuple owns one static storage slot
`kInstance<...>`, so the tuple doubles as the identity of the reference
returned by the lookup entry points. -/
structure TypeKey where
  basicType : TBasicType
  precision : TPrecision
  qualifier : TQualifier
  primarySize : Nat
  secondarySize : Nat
  deriving DecidableEq, Repr

/-- Modelled from the spec: the general `TType` descriptor layout is owned by
the main type-representation module (§3, §6): an immutable record of the five
key attributes plus the canonical (mangled) name, exactly the fields this
header's factory fills in. -/
structure TType where
  basicType : TBasicType
  precision : TPrecision
  qualifier : TQualifier
  primarySize : Nat
  secondarySize : Nat
  mangledName : List Char
  deriving DecidableEq, Repr

/-- `Helpers::BuildStaticMangledName` (header lines 41-83). `bm` is the external
short-code table `GetBasicMangledName` from `Types.h`, passed explicitly; the
C++ copies its NUL-terminated characters, embedded as list append. The written
characters, in order: `'m'` or `'v'` or nothing, the basic short code, the
ASCII digit of `primarySize`, for matrices `'x'` and the digit of
`secondarySize`, and the terminating `';'` (the trailing `'\0'` is not part of
the name). -/
def BuildStaticMangledName (bm : TBasicType → List Char) (basicType : TBasicType)
    (precision : TPrecision) (qualifier : TQualifier)
    (primarySize secondarySize : Nat) : List Char :=
  let isMatrix : Bool := decide (primarySize > 1) && decide (secondarySize > 1)
  let isVector : Bool := decide (primarySize > 1) && decide (secondarySize = 1)
  (if isMatrix then ['m'] else if isVector then ['v'] else [])
    ++ bm basicType
    ++ [Char.ofNat ('0'.toNat + primarySize)]
    ++ (if isMatrix then ['x', Char.ofNat ('0'.toNat + secondarySize)] else [])
    ++ [';']

/-- `Helpers::kMangledNameInstance<B,P,Q,PS,SS>` (header lines 88-94): the
static constexpr mangled name stored for each template-argument tuple. -/
def kMangledNameInstance (bm : TBasicType → List Char) (basicType : TBasicType)
    (precision : TPrecision) (qualifier : TQualifier)
    (primarySize secondarySize : Nat) : List Char :=
  BuildStaticMangledName bm basicType precision qualifier primarySize secondarySize

/-- `Helpers::kInstance<B,P,Q,PS,SS>` (header lines 103-114): the static
constexpr `TType` stored for each template-argument tuple, built from the tuple
and its `kMangledNameInstance`. -/
def kInstance (bm : TBasicType → List Char) (basicType : TBasicType)
    (precision : TPrecision) (qualifier : TQualifier)
    (primarySize secondarySize : Nat) : TType :=
  { basicType := basicType
    precision := precision
    qualifier := qualifier
    primarySize := primarySize
    secondarySize := secondarySize
    mangledName :=
      kMangledNameInstance bm basicType precision qualifier primarySize secondarySize }

/-- Dereference a static reference: `*(&kInstance<k>)` is the canonical
descriptor stored for the tuple `k`. -/
def deref (bm : TBasicType → List Char) (k : TypeKey) : TType :=
  kInstance bm k.basicType k.precision k.qualifier k.primarySize k.secondarySize

/-- `StaticType::Get<B,P,Q,PS,SS>` (header lines 122-132): returns
`&kInstance<...>` guarded by the two `static_assert`s that each size lies in
`[1,4]`; `none` embeds the failed compile. -/
def Get (basicType : TBasicType) (precision : TPrecision) (qualifier : TQualifier)
    (primarySize secondarySize : Nat) : Option TypeKey :=
  if 1 ≤ primarySize ∧ primarySize ≤ 4 ∧ 1 ≤ secondarySize ∧ secondarySize ≤ 4 then
    some ⟨basicType, precision, qualifier, primarySize, secondarySize⟩
  else
    none

/-- `StaticType::GetBasic<B,PS,SS>` (header lines 138-142): forwards to `Get`
with `EbpUndefined` precision and `EvqGlobal` qualifier. -/
def GetBasic (basicType : TBasicType) (primarySize secondarySize : Nat) :
    Option TypeKey :=
  Get basicType EbpUndefined EvqGlobal primarySize secondarySize

/-- `StaticType::GetQualified<B,Q,PS,SS>` (header lines 144-151): forwards to
`Get` with `EbpUndefined` precision. -/
def GetQualified (basicType : TBasicType) (qualifier : TQualifier)
    (primarySize secondarySize : Nat) : Option TypeKey :=
  Get basicType EbpUndefined qualifier primarySize secondarySize

/-- The `static_assert(basicType == EbtFloat || basicType == EbtInt ||
basicType == EbtUInt || basicType == EbtBool, "unsupported basicType")`
condition appearing in `GetForVecMatHelper` and `GetForVecMat`. -/
def supportedBasic (basicType : TBasicType) : Bool :=
  basicType = EbtFloat ∨ basicType = EbtInt ∨ basicType = EbtUInt ∨ basicType = EbtBool

/-- Result of a dynamic-dispatch lookup that compiled: either a normal return
of a static reference, or a return of the defensive fallback reference reached
only after `UNREACHABLE()`. -/
inductive LookupResult where
  | ok (r : TypeKey)
  | fallback (r : TypeKey)
  deriving DecidableEq, Repr

/-- `Helpers::GetForVecMatHelper<B,P,Q,SS>(primarySize)` (header lines
159-182). The instantiation compiles only when its own `static_assert` accepts
the basic type and the four `Get<B,P,Q,k,SS>` instantiations in its switch body
accept `secondarySize` (all four arms are instantiated regardless of the
runtime value); the outer `if` embeds exactly those compile-time conditions.
At runtime the switch dispatches `primarySize` over 1..4; the `default` arm is
`UNREACHABLE(); return GetBasic<EbtVoid>();`. -/
def GetForVecMatHelper (basicType : TBasicType) (precision : TPrecision)
    (qualifier : TQualifier) (secondarySize : Nat) (primarySize : Nat) :
    Option LookupResult :=
  if supportedBasic basicType ∧ 1 ≤ secondarySize ∧ secondarySize ≤ 4 then
    match primarySize with
    | 1 => (Get basicType precision qualifier 1 secondarySize).map LookupResult.ok
    | 2 => (Get basicType precision qualifier 2 secondarySize).map LookupResult.ok
    | 3 => (Get basicType precision qualifier 3 secondarySize).map LookupResult.ok
    | 4 => (Get basicType precision qualifier 4 secondarySize).map LookupResult.ok
    | _ => (GetBasic EbtVoid 1 1).map LookupResult.fallback
  else
    none

/-- `StaticType::GetForVecMat<B,P,Q>(primarySize, secondarySize)` (header lines
186-208): guarded by its `static_assert` on the basic type, it dispatches
`secondarySize` over 1..4 to `GetForVecMatHelper`, with the same
`UNREACHABLE(); return GetBasic<EbtVoid>();` default arm. -/
def GetForVecMat (basicType : TBasicType) (precision : TPrecision)
    (qualifier : TQualifier) (primarySize : Nat) (secondarySize : Nat) :
    Option LookupResult :=
  if supportedBasic basicType then
    match secondarySize with
    | 1 => GetForVecMatHelper basicType precision qualifier 1 primarySize
    | 2 => GetForVecMatHelper basicType precision qualifier 2 primarySize
    | 3 => GetForVecMatHelper basicType precision qualifier 3 primarySize
    | 4 => GetForVecMatHelper basicType precision qualifier 4 primarySize
    | _ => (GetBasic EbtVoid 1 1).map LookupResult.fallback
  else
    none

/-- `StaticType::GetForVec<B,P>(qualifier, size)` (header lines 210-223):
switches on the runtime qualifier, forwarding `EvqGlobal` and `EvqOut` to
`GetForVecMatHelper` with `secondarySize` fixed at 1; every other qualifier
hits `UNREACHABLE(); return GetBasic<EbtVoid>();`. The body instantiates
`GetForVecMatHelper<B,P,·,1>` unconditionally, so the instantiation compiles
only for a supported basic type; the outer `if` embeds that condition. -/
def GetForVec (basicType : TBasicType) (precision : TPrecision)
    (qualifier : TQualifier) (size : Nat) : Option LookupResult :=
  if supportedBasic basicType then
    match qualifier with
    | EvqGlobal => GetForVecMatHelper basicType precision EvqGlobal 1 size
    | EvqOut => GetForVecMatHelper basicType precision EvqOut 1 size
    | _ => (GetBasic EbtVoid 1 1).map LookupResult.fallback
  else
    none

/-- The reference returned by `GetBasic<EbtVoid>()`: the defensive fallback
descriptor (void basic kind, undefined precision, global qualifier, 1x1). -/
def voidFallbackKey : TypeKey :=
  ⟨EbtVoid, EbpUndefined, EvqGlobal, 1, 1⟩

/-- Modelled from the spec: the short-code table `GetBasicMangledName` is owned
by the sibling module `Types.h` (§6: one fixed short string per basic kind,
stable and unique). Concrete one-character codes realize that contract; they
are used only to instantiate theorems that hold for every table. -/
def GetBasicMangledName : TBasicType → List Char
  | EbtVoid => ['v']
  | EbtFloat => ['f']
  | EbtInt => ['i']
  | EbtUInt => ['u']
  | EbtBool => ['b']

/-! ## Shared evaluation lemmas -/

/-- `Get` succeeds on an in-range key and returns the reference determined by
the template-argument tuple alone. -/
theorem Get_eq_some (b : TBasicType) (p : TPrecision) (q : TQualifier)
    (ps ss : Nat) (h1 : 1 ≤ ps) (h2 : ps ≤ 4) (h3 : 1 ≤ ss) (h4 : ss ≤ 4) :
    Get b p q ps ss = some ⟨b, p, q, ps, ss⟩ := by
  simp [Get, h1, h2, h3, h4]

/-- `GetBasic<EbtVoid>()` compiles and returns the fallback reference. -/
theorem GetBasic_void : GetBasic EbtVoid 1 1 = some voidFallbackKey := rfl

/-- With a supported basic type, an in-range secondary size and a primary size
outside `1..4`, `GetForVecMatHelper` takes its `default` arm and returns the
void fallback. -/
theorem GetForVecMatHelper_default (b : TBasicType) (p : TPrecision)
    (q : TQualifier) (ss ps : Nat) (hb : supportedBasic b = true)
    (hss1 : 1 ≤ ss) (hss4 : ss ≤ 4) (hps : ¬(1 ≤ ps ∧ ps ≤ 4)) :
    GetForVecMatHelper b p q ss ps = some (LookupResult.fallback voidFallbackKey) := by
  rcases ps with _ | _ | _ | _ | _ | m
  · simp [GetForVecMatHelper, hb, hss1, hss4, GetBasic, Get, voidFallbackKey]
  · exact absurd (by omega) hps
  · exact absurd (by omega) hps
  · exact absurd (by omega) hps
  · exact absurd (by omega) hps
  · simp [GetForVecMatHelper, hb, hss1, hss4, GetBasic, Get, voidFallbackKey]

/-! ## Claims -/

/-- C1: For every valid `TypeKey` (sizes in `[1,4]`), the static lookup `Get`
succeeds, the reference it returns is a function of the key alone — so two
lookups with identical template arguments return the same reference — and that
one reference holds the canonical descriptor `kInstance` for the key. -/
theorem get_lookup_deterministic (bm : TBasicType → List Char) (b : TBasicType)
    (p : TPrecision) (q : TQualifier) (ps ss : Nat)
    (h1 : 1 ≤ ps) (h2 : ps ≤ 4) (h3 : 1 ≤ ss) (h4 : ss ≤ 4) :
    Get b p q ps ss = some ⟨b, p, q, ps, ss⟩ ∧
    deref bm ⟨b, p, q, ps, ss⟩ = kInstance bm b p q ps ss :=
  ⟨Get_eq_some b p q ps ss h1 h2 h3 h4, rfl⟩

/-- Witness for C1 at the key (float, high, global, 2, 2). -/
theorem get_lookup_deterministic_witness :
    Get EbtFloat EbpHigh EvqGlobal 2 2 = some ⟨EbtFloat, EbpHigh, EvqGlobal, 2, 2⟩ ∧
    deref GetBasicMangledName ⟨EbtFloat, EbpHigh, EvqGlobal, 2, 2⟩ =
      kInstance GetBasicMangledName EbtFloat EbpHigh EvqGlobal 2 2 :=
  get_lookup_deterministic GetBasicMangledName EbtFloat EbpHigh EvqGlobal 2 2
    (by decide) (by decide) (by decide) (by decide)

/-- C2: for every short-code table and every basic kind, the encoder emits
exactly `<code>1;` for the scalar key (1,1), `v<code>3;` for the vector key
(3,1) and `m<code>2x3;` for the matrix key (2,3), independently of precision
and qualifier. -/
theorem encoder_format (bm : TBasicType → List Char) (b : TBasicType)
    (p : TPrecision) (q : TQualifier) :
    BuildStaticMangledName bm b p q 1 1 = bm b ++ ['1', ';'] ∧
    BuildStaticMangledName bm b p q 3 1 = 'v' :: (bm b ++ ['3', ';']) ∧
    BuildStaticMangledName bm b p q 2 3 = 'm' :: (bm b ++ ['2', 'x', '3', ';']) := by
  refine ⟨?_, ?_, ?_⟩ <;> simp [BuildStaticMangledName]

/-- C3: `BuildStaticMangledName` does not read its precision and qualifier
parameters at all, so any two keys agreeing on basic kind and both sizes get
byte-identical names whatever their precisions and qualifiers. -/
theorem encoder_ignores_precision_qualifier (bm : TBasicType → List Char)
    (b : TBasicType) (p1 p2 : TPrecision) (q1 q2 : TQualifier) (ps ss : Nat) :
    BuildStaticMangledName bm b p1 q1 ps ss = BuildStaticMangledName bm b p2 q2 ps ss :=
  rfl

/-- C4: for every supported basic kind, every precision and qualifier, and all
sizes in `[1,4]`, the dynamic bridge `GetForVecMat` returns exactly the static
lookup's reference wrapped as a normal (non-fallback) result. -/
theorem getForVecMat_refines_Get (b : TBasicType) (p : TPrecision)
    (q : TQualifier) (ps ss : Nat) (hb : supportedBasic b = true)
    (hps1 : 1 ≤ ps) (hps4 : ps ≤ 4) (hss1 : 1 ≤ ss) (hss4 : ss ≤ 4) :
    GetForVecMat b p q ps ss = (Get b p q ps ss).map LookupResult.ok ∧
    Get b p q ps ss = some ⟨b, p, q, ps, ss⟩ := by
  refine ⟨?_, Get_eq_some b p q ps ss hps1 hps4 hss1 hss4⟩
  interval_cases ss <;> interval_cases ps <;>
    simp [GetForVecMat, GetForVecMatHelper, Get, hb]

/-- Witness for C4 at (float, high, global, 3, 1), the spec's example. -/
theorem getForVecMat_refines_Get_witness :
    GetForVecMat EbtFloat EbpHigh EvqGlobal 3 1 =
      (Get EbtFloat EbpHigh EvqGlobal 3 1).map LookupResult.ok ∧
    Get EbtFloat EbpHigh EvqGlobal 3 1 = some ⟨EbtFloat, EbpHigh, EvqGlobal, 3, 1⟩ :=
  getForVecMat_refines_Get EbtFloat EbpHigh EvqGlobal 3 1
    (by decide) (by decide) (by decide) (by decide) (by decide)

/-- C5: with qualifier `EvqGlobal` or `EvqOut` and size in `[1,4]`, `GetForVec`
returns the static lookup's reference for secondary size 1 as a normal result;
with any other qualifier it takes the `UNREACHABLE()` arm and yields only the
defensive void fallback. -/
theorem getForVec_qualifier_spec (b : TBasicType) (p : TPrecision)
    (q : TQualifier) (size : Nat) (hb : supportedBasic b = true) :
    ((q = EvqGlobal ∨ q = EvqOut) → 1 ≤ size → size ≤ 4 →
      GetForVec b p q size = (Get b p q size 1).map LookupResult.ok ∧
      Get b p q size 1 = some ⟨b, p, q, size, 1⟩) ∧
    (q ≠ EvqGlobal → q ≠ EvqOut →
      GetForVec b p q size = some (LookupResult.fallback voidFallbackKey)) := by
  constructor
  · rintro (rfl | rfl) h1 h4 <;>
      refine ⟨?_, Get_eq_some b p _ size 1 h1 h4 (by decide) (by decide)⟩ <;>
      interval_cases size <;>
      simp [GetForVec, GetForVecMatHelper, Get, hb]
  · intro hg ho
    cases q <;> simp_all [GetForVec, GetBasic, Get, voidFallbackKey]

/-- Witness for C5: the ok path at (int, medium, out, 2) and the fallback path
at (float, high, const, 3). -/
theorem getForVec_qualifier_spec_witness :
    (GetForVec EbtInt EbpMedium EvqOut 2 =
        (Get EbtInt EbpMedium EvqOut 2 1).map LookupResult.ok ∧
      Get EbtInt EbpMedium EvqOut 2 1 = some ⟨EbtInt, EbpMedium, EvqOut, 2, 1⟩) ∧
    GetForVec EbtFloat EbpHigh EvqConst 3 = some (LookupResult.fallback voidFallbackKey) :=
  ⟨(getForVec_qualifier_spec EbtInt EbpMedium EvqOut 2 (by decide)).1
      (Or.inr rfl) (by decide) (by decide),
   (getForVec_qualifier_spec EbtFloat EbpHigh EvqConst 3 (by decide)).2
      (by decide) (by decide)⟩

/-- C6: whenever `primarySize` or `secondarySize` lies outside `[1,4]`, the
static lookup `Get` is rejected — its `static_assert` fires, embedded as the
`none` (does-not-compile) outcome — so no reference to any descriptor storage
is ever produced for such a key. -/
theorem get_out_of_range_rejected (b : TBasicType) (p : TPrecision)
    (q : TQualifier) (ps ss : Nat)
    (h : ¬(1 ≤ ps ∧ ps ≤ 4) ∨ ¬(1 ≤ ss ∧ ss ≤ 4)) :
    Get b p q ps ss = none := by
  simp only [Get, ite_eq_right_iff]
  intro hc
  rcases h with h | h <;> exact absurd (by tauto) h

/-- Witness for C6 at primary size 5. -/
theorem get_out_of_range_rejected_witness :
    Get EbtFloat EbpHigh EvqGlobal 5 1 = none :=
  get_out_of_range_rejected EbtFloat EbpHigh EvqGlobal 5 1 (Or.inl (by decide))

/-- C7: when `GetForVecMat` receives a dimension outside `1..4`, the dispatch
(or the helper's inner dispatch) falls into the `UNREACHABLE()` arm and the
only value produced is the defensive fallback `GetBasic<EbtVoid>()` — the void,
undefined-precision, global, 1x1 reference — never a normal result for the
requested key. -/
theorem getForVecMat_out_of_range_fallback (b : TBasicType) (p : TPrecision)
    (q : TQualifier) (ps ss : Nat) (hb : supportedBasic b = true)
    (h : ¬(1 ≤ ps ∧ ps ≤ 4) ∨ ¬(1 ≤ ss ∧ ss ≤ 4)) :
    GetForVecMat b p q ps ss = some (LookupResult.fallback voidFallbackKey) ∧
    GetBasic EbtVoid 1 1 = some voidFallbackKey := by
  refine ⟨?_, GetBasic_void⟩
  by_cases hss : 1 ≤ ss ∧ ss ≤ 4
  · have hps : ¬(1 ≤ ps ∧ ps ≤ 4) := by tauto
    obtain ⟨hss1, hss4⟩ := hss
    interval_cases ss <;>
      simpa [GetForVecMat, hb] using
        GetForVecMatHelper_default b p q _ ps hb (by omega) (by omega) hps
  · rcases ss with _ | _ | _ | _ | _ | n
    · simp [GetForVecMat, hb, GetBasic, Get, voidFallbackKey]
    · exact absurd (by omega) hss
    · exact absurd (by omega) hss
    · exact absurd (by omega) hss
    · exact absurd (by omega) hss
    · simp [GetForVecMat, hb, GetBasic, Get, voidFallbackKey]

/-- Witness for C7 at secondary size 5 and at primary size 0. -/
theorem getForVecMat_out_of_range_fallback_witness :
    (GetForVecMat EbtFloat EbpHigh EvqGlobal 2 5 =
        some (LookupResult.fallback voidFallbackKey) ∧
      GetBasic EbtVoid 1 1 = some voidFallbackKey) ∧
    GetForVecMat EbtInt EbpUndefined EvqGlobal 0 2 =
      some (LookupResult.fallback voidFallbackKey) :=
  ⟨getForVecMat_out_of_range_fallback EbtFloat EbpHigh EvqGlobal 2 5
      (by decide) (Or.inr (by decide)),
   (getForVecMat_out_of_range_fallback EbtInt EbpUndefined EvqGlobal 0 2
      (by decide) (Or.inl (by decide))).1⟩

/-- C8: for every short-code table whose codes fit the budget left by the
largest case (a 4x4 matrix: prefix, code, digit, `x`, digit, `;` — so codes of
at most 5 characters) and every valid key, the encoded name has length at most
`kStaticMangledNameMaxLength`, so every character written — including the
final NUL at index `length` — stays inside the `kStaticMangledNameMaxLength+1`
buffer. -/
theorem mangled_name_length_bound (bm : TBasicType → List Char) (b : TBasicType)
    (p : TPrecision) (q : TQualifier) (ps ss : Nat)
    (hbm : (bm b).length ≤ 5)
    (hps1 : 1 ≤ ps) (hps4 : ps ≤ 4) (hss1 : 1 ≤ ss) (hss4 : ss ≤ 4) :
    (BuildStaticMangledName bm b p q ps ss).length ≤ kStaticMangledNameMaxLength := by
  simp only [BuildStaticMangledName, kStaticMangledNameMaxLength, List.length_append]
  split_ifs <;> simp <;> omega

/-- Witness for C8 at the largest case, a 4x4 float matrix. -/
theorem mangled_name_length_bound_witness :
    (BuildStaticMangledName GetBasicMangledName EbtFloat EbpHigh EvqGlobal 4 4).length ≤
      kStaticMangledNameMaxLength :=
  mangled_name_length_bound GetBasicMangledName EbtFloat EbpHigh EvqGlobal 4 4
    (by decide) (by decide) (by decide) (by decide) (by decide)

/-- C9: the overload entry points are definitional abbreviations of the
canonical one: `GetBasic` is `Get` at undefined precision and global
qualifier, and `GetQualified` is `Get` at undefined precision. -/
theorem overloads_default_to_Get (b : TBasicType) (q : TQualifier) (ps ss : Nat) :
    GetBasic b ps ss = Get b EbpUndefined EvqGlobal ps ss ∧
    GetQualified b q ps ss = Get b EbpUndefined q ps ss :=
  ⟨rfl, rfl⟩

/-- C10: with `primarySize = 1` the encoder never looks at `secondarySize` —
every 1xN key gets the scalar name `<code>1;` — even though distinct 1xN keys
still carry distinct canonical descriptors. -/
theorem scalar_name_ignores_secondary (bm : TBasicType → List Char)
    (b : TBasicType) (p : TPrecision) (q : TQualifier) (ss ss' : Nat)
    (hne : ss ≠ ss') :
    BuildStaticMangledName bm b p q 1 ss = bm b ++ ['1', ';'] ∧
    BuildStaticMangledName bm b p q 1 ss' = BuildStaticMangledName bm b p q 1 ss ∧
    kInstance bm b p q 1 ss ≠ kInstance bm b p q 1 ss' := by
  have hform : ∀ t : Nat, BuildStaticMangledName bm b p q 1 t = bm b ++ ['1', ';'] := by
    intro t
    simp [BuildStaticMangledName]
  refine ⟨hform ss, (hform ss').trans (hform ss).symm, fun hEq => hne ?_⟩
  exact congrArg TType.secondarySize hEq

/-- Witness for C10 at secondary sizes 2 and 3. -/
theorem scalar_name_ignores_secondary_witness :
    BuildStaticMangledName GetBasicMangledName EbtFloat EbpHigh EvqGlobal 1 2 =
      GetBasicMangledName EbtFloat ++ ['1', ';'] ∧
    BuildStaticMangledName GetBasicMangledName EbtFloat EbpHigh EvqGlobal 1 3 =
      BuildStaticMangledName GetBasicMangledName EbtFloat EbpHigh EvqGlobal 1 2 ∧
    kInstance GetBasicMangledName EbtFloat EbpHigh EvqGlobal 1 2 ≠
      kInstance GetBasicMangledName EbtFloat EbpHigh EvqGlobal 1 3 :=
  scalar_name_ignores_secondary GetBasicMangledName EbtFloat EbpHigh EvqGlobal 2 3
    (by decide)

end StaticTypeH
